import Mathlib

/-!
# REST-to-search-engine bridge (`main.go`)

A shallow embedding of the document bridge and of the HTTP handlers of `main.go`.

* Go strings are Lean strings, Go's `int` is an `Int` kept in the 64-bit two's-complement
  range by `wrapInt` after every increment.
* `map[string]interface{}` is an association list with distinct keys (`Response`), the
  dynamic values it holds are `Val`.
* The search-engine client is an external library.  `elastic.NewClient` is a function from
  the state of the engine to a client or an error; the document operations of a client are
  a record of state-passing functions (`Client`), the `Do` of a scroll service is a
  state-passing function returning Go's `(res, err)` pair (`ScrollClient`).  `mapEngine` is
  the instance in which the engine is a map from identifier to stored source.
* A function that panics yields `Run.panic`; `log.Fatal` ends the process.
-/

set_option autoImplicit false

/-! ## Go values -/

/-- The document type of the program (`type User struct`). -/
structure User where
  FirstName : String
  LastName : String
  BornDate : String
  deriving DecidableEq, Repr

/-- A JSON value as far as decoding into a string field can tell values apart: a string,
`null`, or any other value (number, boolean, array, object), kept as its text. -/
inductive JVal where
  | str (s : String)
  | null
  | other (raw : String)
  deriving DecidableEq, Repr

/-- A JSON object: its members in the order in which they are written. -/
abbrev Source := List (String × JVal)

/-- A JSON text that is to be decoded: `some members` for an object, `none` for a text
on which the decoder returns an error and sets nothing (a malformed or missing text, or a
top-level string, number, boolean or array). -/
abbrev Body := Option Source

/-- An item of a bulk response (`elastic.BulkResponseItem`), reduced to its identifier. -/
structure BulkResponseItem where
  Id : String
  deriving DecidableEq, Repr

/-- A value stored in a `map[string]interface{}` by this program. -/
inductive Val where
  | bool (b : Bool)
  | str (s : String)
  | user (u : User)
  | items (xs : List BulkResponseItem)
  | rows (xs : List (List (String × JVal)))
  deriving DecidableEq, Repr

/-- Assignment `m[k] = v` on a Go map kept as an association list with distinct keys. -/
def mapSet {β : Type} : List (String × β) → String → β → List (String × β)
  | [], k, v => [(k, v)]
  | (k0, v0) :: rest, k, v => if k0 = k then (k, v) :: rest else (k0, v0) :: mapSet rest k v

/-- Read `m[k]` on a Go map; `none` is the nil interface of a missing entry. -/
def mapGet {β : Type} : List (String × β) → String → Option β
  | [], _ => none
  | (k0, v0) :: rest, k => if k0 = k then some v0 else mapGet rest k

/-- Removal of the entry of `k`. -/
def mapDel {β : Type} (m : List (String × β)) (k : String) : List (String × β) :=
  m.filter (fun p => decide (p.1 ≠ k))

/-- The response maps of the program (`map[string]interface{}`). -/
abbrev Response := List (String × Val)

/-- The index every request addresses (`var indexName`). -/
def indexName : String := "elastic_go"

/-! ## Library functions the program calls -/

/-- Go's `int` on a 64-bit platform: the value an integer has after wrapping around in
64-bit two's complement.  The increment `idIteration++` is `wrapInt (idIteration + 1)`. -/
def wrapInt (x : Int) : Int := (x + 2 ^ 63) % 2 ^ 64 - 2 ^ 63

namespace strconv

/-- The function `strconv.Itoa`: decimal digits, with a leading minus sign below zero. -/
def Itoa (i : Int) : String :=
  match i with
  | Int.ofNat n => String.mk (Nat.toDigits 10 n)
  | Int.negSucc n => String.mk ('-' :: Nat.toDigits 10 (n + 1))

end strconv

/-- The value of a string of decimal digits read after `acc`; `none` when a character is
not a digit. -/
def readDigits : List Char → Nat → Option Nat
  | [], acc => some acc
  | c :: cs, acc =>
    if 48 ≤ c.toNat ∧ c.toNat ≤ 57 then readDigits cs (acc * 10 + (c.toNat - 48)) else none

/-- An identifier read as an integer: an optional minus sign, then at least one digit. -/
def readInt (s : String) : Option Int :=
  match s.data with
  | [] => none
  | c :: cs =>
    if c = '-' then (if cs = [] then none else (readDigits cs 0).map (fun n => - (n : Int)))
    else (readDigits (c :: cs) 0).map (fun n => (n : Int))

/-- The case folding under which `encoding/json` matches an object key with a field name:
the field names are ASCII, and outside ASCII only the long s and the Kelvin sign fold to an
ASCII letter. -/
def foldRune (c : Char) : Char :=
  if c = Char.ofNat 0x17F then 'S'
  else if c = Char.ofNat 0x212A then 'K'
  else c.toUpper

/-- The folded form of a key (`foldName`). -/
def foldName (s : String) : List Char := s.data.map foldRune

/-- One member of a JSON object decoded into a `User`: a key that matches a field sets it
when the value is a string, leaves it when the value is `null`, and records a type error
(leaving the field) for any other value.  Keys that match no field are skipped. -/
def unmarshalMember (acc : User × Bool) (kv : String × JVal) : User × Bool :=
  let u := acc.1
  if foldName kv.1 = foldName "first_name" then
    match kv.2 with
    | JVal.str s => ({ u with FirstName := s }, acc.2)
    | JVal.null => acc
    | JVal.other _ => (u, true)
  else if foldName kv.1 = foldName "last_name" then
    match kv.2 with
    | JVal.str s => ({ u with LastName := s }, acc.2)
    | JVal.null => acc
    | JVal.other _ => (u, true)
  else if foldName kv.1 = foldName "ttl" then
    match kv.2 with
    | JVal.str s => ({ u with BornDate := s }, acc.2)
    | JVal.null => acc
    | JVal.other _ => (u, true)
  else acc

/-- The call `json.Unmarshal(src, &u)` (and `Decoder.Decode(&u)`): the new value of `u`
and whether an error is returned.  Fields the text does not set keep their value. -/
def Unmarshal (src : Body) (u : User) : User × Bool :=
  match src with
  | none => (u, true)
  | some members => members.foldl unmarshalMember (u, false)

/-- The JSON object `json.Marshal` writes for a `User`. -/
def Marshal (u : User) : Source :=
  [("first_name", JVal.str u.FirstName), ("last_name", JVal.str u.LastName),
   ("ttl", JVal.str u.BornDate)]

/-- The call `json.Unmarshal(src, &data)` on a nil `map[string]interface{}`: the map of
the members of an object, and the nil map left in place for any other text. -/
def UnmarshalMap (src : Body) : Option (List (String × JVal)) :=
  match src with
  | none => none
  | some members => some (members.foldl (fun m kv => mapSet m kv.1 kv.2) [])

/-- The verb `%v` of `fmt.Sprintf` (and `fmt.Sprint`) on one operand: the nil interface
prints as `<nil>`, a string as itself, a boolean as `true` or `false`, a struct as its
fields between braces.  The last two cases are slices, which the program never formats:
only their brackets are kept. -/
def Sprintv : Option Val → String
  | none => "<nil>"
  | some (Val.bool b) => if b then "true" else "false"
  | some (Val.str s) => s
  | some (Val.user u) => "\x7b" ++ u.FirstName ++ " " ++ u.LastName ++ " " ++ u.BornDate ++ "\x7d"
  | some (Val.items xs) => "[" ++ " ".intercalate (xs.map (fun x => x.Id)) ++ "]"
  | some (Val.rows xs) => "[" ++ " ".intercalate (xs.map (fun _ => "map[]")) ++ "]"

/-- Pieces of a character list between the occurrences of `sep`. -/
def splitChars (sep : Char) : List Char → List (List Char)
  | [] => [[]]
  | c :: cs =>
    if c = sep then [] :: splitChars sep cs
    else
      match splitChars sep cs with
      | [] => [[c]]
      | piece :: pieces => (c :: piece) :: pieces

namespace strings

/-- The function `strings.Split` for a separator of one character: all the pieces between
the occurrences of the separator, a string without it giving one piece. -/
def Split (s : String) (sep : Char) : List String := (splitChars sep s.data).map String.mk

end strings

/-- The parsed query string of a request (`url.Values`), one pair per occurrence. -/
abbrev Values := List (String × String)

/-- The method `Values.Get`: the first value of the key, the empty string without one. -/
def Values.Get (v : Values) (key : String) : String :=
  match v.find? (fun p => p.1 = key) with
  | some p => p.2
  | none => ""

/-! ## The engine client -/

/-- The errors a call can return: `io.EOF` or any other error. -/
inductive Error where
  | EOF
  | other (msg : String)
  deriving DecidableEq, Repr

/-- The method `Error()` of an error value: its text. -/
def Error.message : Error → String
  | Error.EOF => "EOF"
  | Error.other msg => msg

structure IndexResponse where
  Id : String
  deriving DecidableEq, Repr

structure GetResult where
  Id : String
  Source : Body
  deriving DecidableEq, Repr

structure UpdateResponse where
  Id : String
  deriving DecidableEq, Repr

structure DeleteResponse where
  Id : String
  deriving DecidableEq, Repr

structure BulkResponse where
  Items : List BulkResponseItem
  deriving DecidableEq, Repr

structure SearchHit where
  Id : String
  Source : Body
  deriving DecidableEq, Repr

structure SearchResult where
  Hits : List SearchHit
  deriving DecidableEq, Repr

/-- The document operations of the engine client on the index `indexName`, each one round
trip taking the engine from one state to the next: `Index().Id(id).BodyJson(data).Do`,
`Bulk().Add(..).Do` on the index requests in the order added, `Get().Id(id).Do`,
`Update().Id(id).Doc(data).Do` and `Delete().Id(id).Do`. -/
structure Client (σ : Type) where
  Index : String → User → σ → Except Error IndexResponse × σ
  Bulk : List (String × User) → σ → Except Error BulkResponse × σ
  Get : String → σ → Except Error GetResult × σ
  Update : String → User → σ → Except Error UpdateResponse × σ
  Delete : String → σ → Except Error DeleteResponse × σ

/-- The pair `(res, err)` returned by `Do` on a scroll service; `res` is a pointer. -/
abbrev ScrollReply := Option SearchResult × Option Error

/-- The client as the two scroll loops use it: one round trip `Do` of the scroll service
`Scroll().Index(indexName).Size(1)`, made without a query (`none`) or with the term query
of a field name and a value. -/
abbrev ScrollClient (σ : Type) := Option (String × String) → σ → ScrollReply × σ

/-- How a function of the program ends: it returns, it panics, or the model ran out of
steps before it did either. -/
inductive Run (α : Type) where
  | done (a : α)
  | panic (msg : String)
  | more
  deriving DecidableEq, Repr

/-- The process: the counter `idIteration`, the state of the engine it talks to, and the
identifiers assigned so far by `id = strconv.Itoa(idIteration)`, in the order of
assignment.  The last field is a history variable: no statement of the program reads it. -/
structure Proc (σ : Type) where
  idIteration : Int
  engine : σ
  assigned : List String

/-! ## The document bridge -/

section Bridge

variable {σ κ : Type}

/-- The function `initElastic`: the client `elastic.NewClient` returns, or `panic(err)`
when it returns an error. -/
def initElastic (NewClient : σ → Except Error κ) (s : σ) : Run κ :=
  match NewClient s with
  | Except.error err => Run.panic err.message
  | Except.ok client => Run.done client

/-- The inner loop of `getAllElasticData`, over the hits of one page.  `userData` is the
one variable declared before the loops. -/
def getAllHits : List SearchHit → List User → List String → User → List User × List String × User
  | [], users, idUsers, userData => (users, idUsers, userData)
  | hit :: hits, users, idUsers, userData =>
    let userData := (Unmarshal hit.Source userData).1
    getAllHits hits (users ++ [userData]) (idUsers ++ [hit.Id]) userData

/-- The scroll loop of `getAllElasticData`; `fuel` bounds the number of round trips. -/
def getAllLoop (Do : σ → ScrollReply × σ) :
    Nat → σ → List User → List String → User → Run (List User × List String) × σ
  | 0, s, _, _, _ => (Run.more, s)
  | fuel + 1, s, users, idUsers, userData =>
    let reply := Do s
    if reply.1.2 = some Error.EOF then (Run.done (users, idUsers), reply.2)
    else
      match reply.1.1 with
      | none =>
        (Run.panic "runtime error: invalid memory address or nil pointer dereference", reply.2)
      | some res =>
        let acc := getAllHits res.Hits users idUsers userData
        getAllLoop Do fuel reply.2 acc.1 acc.2.1 acc.2.2

/-- The last loop of `getAllElasticData`: `response[idUsers[i]] = users[i]`.  The two
slices are appended to together, so `idUsers[i]` is the identifier of `users[i]`. -/
def getAllResponse (users : List User) (idUsers : List String) : Response :=
  (idUsers.zip users).foldl
    (fun response p => mapSet response (Sprintv (some (Val.str p.1))) (Val.user p.2)) []

def getAllElasticData (NewClient : σ → Except Error (ScrollClient σ)) (fuel : Nat) (s : σ) :
    Run Response × σ :=
  match initElastic NewClient s with
  | Run.done client =>
    match getAllLoop (client none) fuel s [] [] ⟨"", "", ""⟩ with
    | (Run.done acc, s1) => (Run.done (getAllResponse acc.1 acc.2), s1)
    | (Run.panic msg, s1) => (Run.panic msg, s1)
    | (Run.more, s1) => (Run.more, s1)
  | Run.panic msg => (Run.panic msg, s)
  | Run.more => (Run.more, s)

def createElasticData (NewClient : σ → Except Error (Client σ)) (data : User) (id : String)
    (s : σ) : Run Response × σ :=
  match initElastic NewClient s with
  | Run.done client =>
    match client.Index id data s with
    | (Except.error _, s1) =>
      (Run.done (mapSet (mapSet [] "status" (Val.bool false)) "message" (Val.str "failed")), s1)
    | (Except.ok putDoc, s1) =>
      (Run.done (mapSet (mapSet (mapSet [] "status" (Val.bool true)) "message"
        (Val.str "success")) "id" (Val.str putDoc.Id)), s1)
  | Run.panic msg => (Run.panic msg, s)
  | Run.more => (Run.more, s)

/-- The loop of `bulkElasticData`: the counter and the bulk request after the documents. -/
def bulkLoop : List User → Int → List (String × User) → Int × List (String × User)
  | [], idIteration, bulkRequest => (idIteration, bulkRequest)
  | doc :: data, idIteration, bulkRequest =>
    let idIteration := wrapInt (idIteration + 1)
    let id := strconv.Itoa idIteration
    bulkLoop data idIteration (bulkRequest ++ [(id, doc)])

/-- The function `bulkElasticData`.  The identifiers assigned in the loop are those of the
index requests added to the bulk request. -/
def bulkElasticData (NewClient : σ → Except Error (Client σ)) (data : List User) (p : Proc σ) :
    Run Response × Proc σ :=
  match initElastic NewClient p.engine with
  | Run.done client =>
    let st := bulkLoop data p.idIteration []
    match client.Bulk st.2 p.engine with
    | (Except.error _, s1) =>
      (Run.done (mapSet (mapSet [] "status" (Val.bool false)) "message" (Val.str "failed")),
        ⟨st.1, s1, p.assigned ++ st.2.map Prod.fst⟩)
    | (Except.ok bulkResponse, s1) =>
      (Run.done (mapSet (mapSet (mapSet [] "status" (Val.bool true)) "message"
        (Val.str "success")) "data" (Val.items bulkResponse.Items)),
        ⟨st.1, s1, p.assigned ++ st.2.map Prod.fst⟩)
  | Run.panic msg => (Run.panic msg, p)
  | Run.more => (Run.more, p)

def getElasticData (NewClient : σ → Except Error (Client σ)) (id : String) (s : σ) :
    Run Response × σ :=
  match initElastic NewClient s with
  | Run.done client =>
    match client.Get id s with
    | (Except.error _, s1) =>
      (Run.done (mapSet (mapSet [] "status" (Val.bool false)) "message"
        (Val.str "data not found")), s1)
    | (Except.ok getDoc, s1) =>
      let userData := (Unmarshal getDoc.Source ⟨"", "", ""⟩).1
      (Run.done (mapSet (mapSet (mapSet (mapSet (mapSet (mapSet [] "status" (Val.bool true))
        "message" (Val.str "success")) "id" (Val.str getDoc.Id))
        "first_name" (Val.str userData.FirstName)) "last_name" (Val.str userData.LastName))
        "ttl" (Val.str userData.BornDate)), s1)
  | Run.panic msg => (Run.panic msg, s)
  | Run.more => (Run.more, s)

def updateElasticData (NewClient : σ → Except Error (Client σ)) (data : User) (id : String)
    (s : σ) : Run Response × σ :=
  match initElastic NewClient s with
  | Run.done client =>
    match client.Update id data s with
    | (Except.error _, s1) =>
      (Run.done (mapSet (mapSet [] "status" (Val.bool false)) "message" (Val.str "failed")), s1)
    | (Except.ok updateDoc, s1) =>
      (Run.done (mapSet (mapSet (mapSet [] "status" (Val.bool true)) "message"
        (Val.str "updated")) "id" (Val.str updateDoc.Id)), s1)
  | Run.panic msg => (Run.panic msg, s)
  | Run.more => (Run.more, s)

def deleteElasticData (NewClient : σ → Except Error (Client σ)) (id : String) (s : σ) :
    Run Response × σ :=
  match initElastic NewClient s with
  | Run.done client =>
    match client.Delete id s with
    | (Except.error _, s1) =>
      (Run.done (mapSet (mapSet [] "status" (Val.bool false)) "message" (Val.str "failed")), s1)
    | (Except.ok deleteDoc, s1) =>
      (Run.done (mapSet (mapSet (mapSet [] "status" (Val.bool true)) "message"
        (Val.str "deleted")) "id" (Val.str deleteDoc.Id)), s1)
  | Run.panic msg => (Run.panic msg, s)
  | Run.more => (Run.more, s)

/-- The inner loop of `searchElasticData`; `data` is declared anew for every hit, and the
assignment `data["_id"] = hit.Id` panics on the nil map a failed decoding leaves. -/
def searchHits : List SearchHit → List (List (String × JVal)) → Run (List (List (String × JVal)))
  | [], getData => Run.done getData
  | hit :: hits, getData =>
    match UnmarshalMap hit.Source with
    | none => Run.panic "assignment to entry in nil map"
    | some data => searchHits hits (getData ++ [mapSet data "_id" (JVal.str hit.Id)])

/-- The scroll loop of `searchElasticData`. -/
def searchLoop (Do : σ → ScrollReply × σ) :
    Nat → σ → List (List (String × JVal)) → Run (List (List (String × JVal))) × σ
  | 0, s, _ => (Run.more, s)
  | fuel + 1, s, getData =>
    let reply := Do s
    if reply.1.2 = some Error.EOF then (Run.done getData, reply.2)
    else
      match reply.1.1 with
      | none =>
        (Run.panic "runtime error: invalid memory address or nil pointer dereference", reply.2)
      | some res =>
        match searchHits res.Hits getData with
        | Run.done getData1 => searchLoop Do fuel reply.2 getData1
        | Run.panic msg => (Run.panic msg, reply.2)
        | Run.more => (Run.more, reply.2)

def searchElasticData (NewClient : σ → Except Error (ScrollClient σ)) (key value : String)
    (fuel : Nat) (s : σ) : Run Response × σ :=
  match initElastic NewClient s with
  | Run.done client =>
    match searchLoop (client (some (key, value))) fuel s [] with
    | (Run.done getData, s1) => (Run.done (mapSet [] "data" (Val.rows getData)), s1)
    | (Run.panic msg, s1) => (Run.panic msg, s1)
    | (Run.more, s1) => (Run.more, s1)
  | Run.panic msg => (Run.panic msg, s)
  | Run.more => (Run.more, s)

end Bridge

/-! ## The HTTP handlers

A handler is given the parts of the request it reads and returns the value it encodes
into the response.  A panic ends the handler and not the process: the HTTP server recovers
the panic of a handler and goes on serving. -/

section Handlers

variable {σ : Type}

def getAllPosts (NewClient : σ → Except Error (ScrollClient σ)) (fuel : Nat) (s : σ) :
    Run Response × σ :=
  getAllElasticData NewClient fuel s

def createPost (NewClient : σ → Except Error (Client σ)) (body : Body) (p : Proc σ) :
    Run Response × Proc σ :=
  let idIteration := wrapInt (p.idIteration + 1)
  let post := (Unmarshal body ⟨"", "", ""⟩).1
  let id := strconv.Itoa idIteration
  let r := createElasticData NewClient post id p.engine
  (r.1, ⟨idIteration, r.2, p.assigned ++ [id]⟩)

/-- The decoding loop of `bulkPost` over the JSON texts of the body; the end of the list
is `io.EOF`.  `post` is the one variable declared before the loop.  `none` is the
`log.Fatal` on a decoding error. -/
def bulkDecode : List Body → User → List User → Option (List User)
  | [], _, posts => some posts
  | text :: stream, post, posts =>
    let r := Unmarshal text post
    if r.2 then none else bulkDecode stream r.1 (posts ++ [r.1])

/-- The handler `bulkPost`; `none` when `log.Fatal` ends the process. -/
def bulkPost (NewClient : σ → Except Error (Client σ)) (stream : List Body) (p : Proc σ) :
    Option (Run Response × Proc σ) :=
  match bulkDecode stream ⟨"", "", ""⟩ [] with
  | none => none
  | some posts => some (bulkElasticData NewClient posts p)

def getPost (NewClient : σ → Except Error (Client σ)) (id : String) (s : σ) : Run Response × σ :=
  getElasticData NewClient id s

/-- The three defaulting statements of `updatePost`. -/
def updateDefaults (getData : Response) (post : User) : User :=
  let post := if post.FirstName = "" then
    { post with FirstName := Sprintv (mapGet getData "first_name") } else post
  let post := if post.LastName = "" then
    { post with LastName := Sprintv (mapGet getData "last_name") } else post
  let post := if post.BornDate = "" then
    { post with BornDate := Sprintv (mapGet getData "ttl") } else post
  post

def updatePost (NewClient : σ → Except Error (Client σ)) (id : String) (body : Body) (s : σ) :
    Run Response × σ :=
  match getElasticData NewClient id s with
  | (Run.done getData, s1) =>
    let post := (Unmarshal body ⟨"", "", ""⟩).1
    let post := updateDefaults getData post
    updateElasticData NewClient post id s1
  | (Run.panic msg, s1) => (Run.panic msg, s1)
  | (Run.more, s1) => (Run.more, s1)

def deletePost (NewClient : σ → Except Error (Client σ)) (id : String) (s : σ) :
    Run Response × σ :=
  deleteElasticData NewClient id s

/-- The statements of `searchPost` that read the request: `data[0]` and `data[1]` of the
split query parameter.  An index past the end of the slice panics. -/
def searchQuery (v : Values) : Run (String × String) :=
  let query := v.Get "q"
  let data := strings.Split query ':'
  match data[0]? with
  | none => Run.panic "runtime error: index out of range [0] with length 0"
  | some key =>
    match data[1]? with
    | none => Run.panic "runtime error: index out of range [1] with length 1"
    | some value => Run.done (key, value)

def searchPost (NewClient : σ → Except Error (ScrollClient σ)) (v : Values) (fuel : Nat)
    (s : σ) : Run Response × σ :=
  match searchQuery v with
  | Run.done kv => searchElasticData NewClient kv.1 kv.2 fuel s
  | Run.panic msg => (Run.panic msg, s)
  | Run.more => (Run.more, s)

end Handlers

/-! ## Engines -/

/-- The engine as a map from identifier to stored source. -/
abbrev Store := List (String × Source)

/-- The document of an update request merged into a stored source: every member of the
patch is set, the other members are kept. -/
def mergeDoc (stored patch : Source) : Source :=
  patch.foldl (fun m kv => mapSet m kv.1 kv.2) stored

/-- The client of the map engine.  Indexing writes the marshalled document under the
identifier, replacing what was there; a bulk request does so for each of its index
requests and is refused when it has none; reading, updating and deleting an identifier
that is not stored return an error. -/
def mapEngine : Client Store where
  Index := fun id data s => (Except.ok ⟨id⟩, mapSet s id (Marshal data))
  Bulk := fun reqs s =>
    if reqs = [] then (Except.error (Error.other "elastic: No bulk actions to commit"), s)
    else (Except.ok ⟨reqs.map (fun r => ⟨r.1⟩)⟩, reqs.foldl (fun m r => mapSet m r.1 (Marshal r.2)) s)
  Get := fun id s =>
    match mapGet s id with
    | some src => (Except.ok ⟨id, some src⟩, s)
    | none => (Except.error (Error.other "elastic: Error 404 (Not Found)"), s)
  Update := fun id data s =>
    match mapGet s id with
    | some src => (Except.ok ⟨id⟩, mapSet s id (mergeDoc src (Marshal data)))
    | none => (Except.error (Error.other "elastic: Error 404 (Not Found)"), s)
  Delete := fun id s =>
    match mapGet s id with
    | some _ => (Except.ok ⟨id⟩, mapDel s id)
    | none => (Except.error (Error.other "elastic: Error 404 (Not Found)"), s)

/-- The map engine is always reached: `elastic.NewClient` returns its client. -/
def mapConnect : Store → Except Error (Client Store) := fun _ => Except.ok mapEngine

/-- An engine that cannot be reached: `elastic.NewClient` returns an error. -/
def noConnect {σ κ : Type} : σ → Except Error κ :=
  fun _ => Except.error (Error.other "no active connection found: no Elasticsearch node available")

/-- A scroll service that gives the replies of a list one after another, and `io.EOF`
with an empty result once the list is used up. -/
def scriptedDo (s : List ScrollReply) : ScrollReply × List ScrollReply :=
  match s with
  | [] => ((some ⟨[]⟩, some Error.EOF), [])
  | reply :: rest => (reply, rest)

/-- The engine of `scriptedDo` is always reached, and answers every query alike. -/
def scriptedConnect : List ScrollReply → Except Error (ScrollClient (List ScrollReply)) :=
  fun _ => Except.ok (fun _ => scriptedDo)

/-- A client all of whose round trips fail. -/
def downEngine : Client Unit where
  Index := fun _ _ s => (Except.error (Error.other "connection refused"), s)
  Bulk := fun _ s => (Except.error (Error.other "connection refused"), s)
  Get := fun _ s => (Except.error (Error.other "connection refused"), s)
  Update := fun _ _ s => (Except.error (Error.other "connection refused"), s)
  Delete := fun _ s => (Except.error (Error.other "connection refused"), s)

/-- An engine that lets the client be created and then fails every round trip. -/
def downConnect : Unit → Except Error (Client Unit) := fun _ => Except.ok downEngine

/-! ## Sequences of creation calls -/

/-- A call that assigns identifiers: the two handlers, and the bridge function itself. -/
inductive Call where
  | createPost (body : Body)
  | bulkPost (stream : List Body)
  | bulkElasticData (data : List User)

/-- The process serving a list of calls one after another, up to the `log.Fatal` of a
`bulkPost`, after which no call is served.  A call that panics is over, the next one is
served. -/
def serve {σ : Type} (NewClient : σ → Except Error (Client σ)) : List Call → Proc σ → Proc σ
  | [], p => p
  | Call.createPost body :: calls, p => serve NewClient calls (createPost NewClient body p).2
  | Call.bulkPost stream :: calls, p =>
    match bulkPost NewClient stream p with
    | none => p
    | some r => serve NewClient calls r.2
  | Call.bulkElasticData data :: calls, p =>
    serve NewClient calls (bulkElasticData NewClient data p).2

/-- The identifiers issued by a fresh process (`idIteration = 0`) serving `calls` on the
engine state `s`, in the order of issue. -/
def issued {σ : Type} (NewClient : σ → Except Error (Client σ)) (calls : List Call) (s : σ) :
    List String :=
  (serve NewClient calls ⟨0, s, []⟩).assigned
/-! ## Go maps -/

theorem mapGet_mapSet_self {β : Type} (m : List (String × β)) (k : String) (v : β) :
    mapGet (mapSet m k v) k = some v := by
  induction m with
  | nil => simp [mapSet, mapGet]
  | cons kv rest ih =>
    obtain ⟨k0, v0⟩ := kv
    by_cases h : k0 = k
    · simp [mapSet, mapGet, h]
    · simp [mapSet, mapGet, h, ih]

theorem mapGet_mapDel_self {β : Type} (m : List (String × β)) (k : String) :
    mapGet (mapDel m k) k = none := by
  induction m with
  | nil => simp [mapDel, mapGet]
  | cons kv rest ih =>
    obtain ⟨k0, v0⟩ := kv
    by_cases h : k0 = k
    · simpa [mapDel, h] using ih
    · simpa [mapDel, mapGet, h] using ih

theorem mapSet_of_mapGet {β : Type} (m : List (String × β)) (k : String) (v : β)
    (h : mapGet m k = some v) : mapSet m k v = m := by
  induction m with
  | nil => simp [mapGet] at h
  | cons kv rest ih =>
    obtain ⟨k0, v0⟩ := kv
    by_cases hk : k0 = k
    · simp [mapGet, hk] at h
      simp [mapSet, hk, h]
    · simp [mapGet, hk] at h
      simp [mapSet, hk, ih h]

/-! ## Encoding and decoding a document -/

theorem Unmarshal_Marshal (u v : User) : Unmarshal (some (Marshal u)) v = (u, false) := by
  have h1 : foldName "last_name" ≠ foldName "first_name" := by decide
  have h2 : foldName "ttl" ≠ foldName "first_name" := by decide
  have h3 : foldName "ttl" ≠ foldName "last_name" := by decide
  simp [Unmarshal, Marshal, unmarshalMember, h1, h2, h3]

theorem mergeDoc_Marshal_self (u : User) : mergeDoc (Marshal u) (Marshal u) = Marshal u := by
  simp [mergeDoc, Marshal, mapSet]

/-- The response of `getElasticData` on a successful retrieval, read by `updatePost`. -/
theorem updateDefaults_of_found (id : String) (d p : User) :
    updateDefaults
      (mapSet (mapSet (mapSet (mapSet (mapSet (mapSet [] "status" (Val.bool true))
        "message" (Val.str "success")) "id" (Val.str id))
        "first_name" (Val.str d.FirstName)) "last_name" (Val.str d.LastName))
        "ttl" (Val.str d.BornDate)) p =
    ⟨if p.FirstName = "" then d.FirstName else p.FirstName,
     if p.LastName = "" then d.LastName else p.LastName,
     if p.BornDate = "" then d.BornDate else p.BornDate⟩ := by
  obtain ⟨pf, pl, pb⟩ := p
  simp only [updateDefaults, mapSet, mapGet, Sprintv]
  by_cases h1 : pf = "" <;> by_cases h2 : pl = "" <;> by_cases h3 : pb = "" <;>
    simp [h1, h2, h3, Sprintv]

/-- The response of `getElasticData` on a failed retrieval, read by `updatePost`. -/
theorem updateDefaults_of_missing (p : User) :
    updateDefaults
      (mapSet (mapSet [] "status" (Val.bool false)) "message" (Val.str "data not found")) p =
    ⟨if p.FirstName = "" then "<nil>" else p.FirstName,
     if p.LastName = "" then "<nil>" else p.LastName,
     if p.BornDate = "" then "<nil>" else p.BornDate⟩ := by
  obtain ⟨pf, pl, pb⟩ := p
  simp only [updateDefaults, mapSet, mapGet, Sprintv]
  by_cases h1 : pf = "" <;> by_cases h2 : pl = "" <;> by_cases h3 : pb = "" <;>
    simp [h1, h2, h3, Sprintv]


/-! ## Create, read, update and delete on the map engine -/

theorem initElastic_ok {σ κ : Type} (NewClient : σ → Except Error κ) (s : σ) (client : κ)
    (h : NewClient s = Except.ok client) : initElastic NewClient s = Run.done client := by
  simp [initElastic, h]

theorem initElastic_error {σ κ : Type} (NewClient : σ → Except Error κ) (s : σ) (err : Error)
    (h : NewClient s = Except.error err) : initElastic NewClient s = Run.panic err.message := by
  simp [initElastic, h]

/-- C4: on the map engine, for every document `u`, identifier `id` and store `s`,
`createElasticData(u, id)` followed by `getElasticData(id)` returns status true, message
"success", the identifier `id` and the three fields of `u`, whatever `s` held at `id`. -/
theorem C4_get_after_create (u : User) (id : String) (s : Store) :
    (getElasticData mapConnect id (createElasticData mapConnect u id s).2).1 =
      Run.done
        [("status", Val.bool true), ("message", Val.str "success"), ("id", Val.str id),
         ("first_name", Val.str u.FirstName), ("last_name", Val.str u.LastName),
         ("ttl", Val.str u.BornDate)] := by
  simp [getElasticData, createElasticData, initElastic, mapConnect, mapEngine,
    mapGet_mapSet_self, Unmarshal_Marshal, mapSet]

/-- C5: on the map engine, for every identifier `id`, after a `deleteElasticData(id)` that
returns a response with status true `getElasticData(id)` returns the map with exactly the
two entries status = false and message = "data not found". -/
theorem C5_get_after_delete (id : String) (s : Store) (deleted : Response)
    (hret : (deleteElasticData mapConnect id s).1 = Run.done deleted)
    (hdel : mapGet deleted "status" = some (Val.bool true)) :
    (getElasticData mapConnect id (deleteElasticData mapConnect id s).2).1 =
      Run.done [("status", Val.bool false), ("message", Val.str "data not found")] := by
  cases hs : mapGet s id with
  | none =>
    simp [deleteElasticData, initElastic, mapConnect, mapEngine, hs, mapSet] at hret
    subst hret
    simp [mapGet] at hdel
  | some src =>
    simp [getElasticData, deleteElasticData, initElastic, mapConnect, mapEngine, hs,
      mapGet_mapDel_self, mapSet]

theorem C5_get_after_delete_witness :
    (getElasticData mapConnect "1"
        (deleteElasticData mapConnect "1" [("1", Marshal ⟨"A", "B", "2020-01-01"⟩)]).2).1 =
      Run.done [("status", Val.bool false), ("message", Val.str "data not found")] :=
  C5_get_after_delete "1" [("1", Marshal ⟨"A", "B", "2020-01-01"⟩)]
    [("status", Val.bool true), ("message", Val.str "deleted"), ("id", Val.str "1")]
    (by decide) (by decide)

/-- C3: when the retrieval of `id` succeeds with a source that decodes to the document
`d`, `updatePost` with a payload that decodes to `p` passes to `updateElasticData` the
document that has, in each of the three fields, the value of `p` when it is not empty and
the value of `d` otherwise; and on the map engine, with `d` stored at `id`, a payload whose
three fields are empty leaves the store as it was. -/
theorem C3_update_defaults_from_stored {σ : Type} (NewClient : σ → Except Error (Client σ))
    (c : Client σ) (id : String) (body : Body) (s s1 : σ) (getDoc : GetResult)
    (hnew : NewClient s = Except.ok c) (hget : c.Get id s = (Except.ok getDoc, s1)) :
    updatePost NewClient id body s =
        updateElasticData NewClient
          ⟨if (Unmarshal body ⟨"", "", ""⟩).1.FirstName = ""
             then (Unmarshal getDoc.Source ⟨"", "", ""⟩).1.FirstName
             else (Unmarshal body ⟨"", "", ""⟩).1.FirstName,
           if (Unmarshal body ⟨"", "", ""⟩).1.LastName = ""
             then (Unmarshal getDoc.Source ⟨"", "", ""⟩).1.LastName
             else (Unmarshal body ⟨"", "", ""⟩).1.LastName,
           if (Unmarshal body ⟨"", "", ""⟩).1.BornDate = ""
             then (Unmarshal getDoc.Source ⟨"", "", ""⟩).1.BornDate
             else (Unmarshal body ⟨"", "", ""⟩).1.BornDate⟩ id s1 ∧
      ∀ (st : Store) (d : User), mapGet st id = some (Marshal d) →
        (Unmarshal body ⟨"", "", ""⟩).1 = ⟨"", "", ""⟩ →
        updatePost mapConnect id body st = updateElasticData mapConnect d id st ∧
        (updatePost mapConnect id body st).2 = st := by
  constructor
  · simp only [updatePost, getElasticData, initElastic_ok NewClient s c hnew, hget]
    rw [updateDefaults_of_found]
  · intro st d hst hp
    have hupd : updatePost mapConnect id body st = updateElasticData mapConnect d id st := by
      have hg : mapEngine.Get id st = (Except.ok ⟨id, some (Marshal d)⟩, st) := by
        simp [mapEngine, hst]
      simp only [updatePost, getElasticData, initElastic_ok mapConnect st mapEngine rfl, hg]
      rw [updateDefaults_of_found, hp, Unmarshal_Marshal]
      simp
    refine ⟨hupd, ?_⟩
    rw [hupd]
    simp [updateElasticData, initElastic, mapConnect, mapEngine, hst, mergeDoc_Marshal_self,
      mapSet_of_mapGet]

theorem C3_update_defaults_from_stored_witness :
    updatePost mapConnect "1" (some [("last_name", JVal.str "Z")])
        [("1", Marshal ⟨"A", "B", "2020-01-01"⟩)] =
      updateElasticData mapConnect ⟨"A", "Z", "2020-01-01"⟩ "1"
        [("1", Marshal ⟨"A", "B", "2020-01-01"⟩)] ∧
    (updatePost mapConnect "1" (some [("last_name", JVal.str "")])
        [("1", Marshal ⟨"A", "B", "2020-01-01"⟩)]).2 = [("1", Marshal ⟨"A", "B", "2020-01-01"⟩)] :=
  ⟨by
    have h := (C3_update_defaults_from_stored mapConnect mapEngine "1"
      (some [("last_name", JVal.str "Z")])
      [("1", Marshal ⟨"A", "B", "2020-01-01"⟩)] [("1", Marshal ⟨"A", "B", "2020-01-01"⟩)]
      ⟨"1", some (Marshal ⟨"A", "B", "2020-01-01"⟩)⟩ rfl rfl).1
    rw [h]
    decide,
   ((C3_update_defaults_from_stored mapConnect mapEngine "1"
      (some [("last_name", JVal.str "")])
      [("1", Marshal ⟨"A", "B", "2020-01-01"⟩)] [("1", Marshal ⟨"A", "B", "2020-01-01"⟩)]
      ⟨"1", some (Marshal ⟨"A", "B", "2020-01-01"⟩)⟩ rfl rfl).2
      [("1", Marshal ⟨"A", "B", "2020-01-01"⟩)] ⟨"A", "B", "2020-01-01"⟩ (by decide)
      (by decide)).2⟩

/-- C10: when the retrieval of `id` in `updatePost` fails, every field that is empty in
the decoded payload is replaced by the string "<nil>" in the document passed to
`updateElasticData`, and every other field is passed as it is. -/
theorem C10_update_defaults_nil {σ : Type} (NewClient : σ → Except Error (Client σ))
    (c : Client σ) (id : String) (body : Body) (s s1 : σ) (err : Error)
    (hnew : NewClient s = Except.ok c) (hget : c.Get id s = (Except.error err, s1)) :
    updatePost NewClient id body s =
      updateElasticData NewClient
        ⟨if (Unmarshal body ⟨"", "", ""⟩).1.FirstName = "" then "<nil>"
           else (Unmarshal body ⟨"", "", ""⟩).1.FirstName,
         if (Unmarshal body ⟨"", "", ""⟩).1.LastName = "" then "<nil>"
           else (Unmarshal body ⟨"", "", ""⟩).1.LastName,
         if (Unmarshal body ⟨"", "", ""⟩).1.BornDate = "" then "<nil>"
           else (Unmarshal body ⟨"", "", ""⟩).1.BornDate⟩ id s1 := by
  simp only [updatePost, getElasticData, initElastic_ok NewClient s c hnew, hget]
  rw [updateDefaults_of_missing]

theorem C10_update_defaults_nil_witness :
    updatePost mapConnect "7" (some [("first_name", JVal.str "Z")]) [] =
      updateElasticData mapConnect ⟨"Z", "<nil>", "<nil>"⟩ "7" [] := by
  have h := C10_update_defaults_nil mapConnect mapEngine "7"
    (some [("first_name", JVal.str "Z")]) [] []
    (Error.other "elastic: Error 404 (Not Found)") rfl rfl
  rw [h]
  decide

/-! ## The search query -/

theorem splitChars_eq (sep : Char) (cs : List Char) :
    splitChars sep cs =
      cs.takeWhile (fun c => decide (c ≠ sep)) ::
        (if sep ∈ cs then splitChars sep ((cs.dropWhile (fun c => decide (c ≠ sep))).drop 1)
         else []) := by
  induction cs with
  | nil => simp [splitChars]
  | cons c cs ih =>
    by_cases h : c = sep
    · subst h
      simp [splitChars, List.takeWhile, List.dropWhile]
    · have h2 : ¬ sep = c := fun e => h e.symm
      rw [splitChars, if_neg h, ih]
      simp [List.takeWhile, List.dropWhile, h, h2]

theorem splitChars_without (sep : Char) (cs : List Char) (h : sep ∉ cs) :
    splitChars sep cs = [cs] := by
  rw [splitChars_eq, if_neg h]
  congr 1
  rw [List.takeWhile_eq_self_iff]
  intro c hc
  simp only [ne_eq, decide_eq_true_eq]
  intro e
  exact h (e ▸ hc)

theorem Split_with_colon (q : String) (h : ':' ∈ q.data) :
    (strings.Split q ':')[0]? = some (String.mk (q.data.takeWhile (fun c => decide (c ≠ ':')))) ∧
    (strings.Split q ':')[1]? =
      some (String.mk (((q.data.dropWhile (fun c => decide (c ≠ ':'))).drop 1).takeWhile
        (fun c => decide (c ≠ ':')))) := by
  unfold strings.Split
  rw [splitChars_eq, if_pos h, splitChars_eq]
  simp

theorem searchQuery_with_colon (v : Values) (h : ':' ∈ (v.Get "q").data) :
    searchQuery v =
      Run.done
        (String.mk ((v.Get "q").data.takeWhile (fun c => decide (c ≠ ':'))),
         String.mk ((((v.Get "q").data.dropWhile (fun c => decide (c ≠ ':'))).drop 1).takeWhile
           (fun c => decide (c ≠ ':')))) := by
  have h2 := Split_with_colon (v.Get "q") h
  simp only [searchQuery, h2.1, h2.2]

theorem searchQuery_without_colon (v : Values) (h : ':' ∉ (v.Get "q").data) :
    searchQuery v = Run.panic "runtime error: index out of range [1] with length 1" := by
  simp only [searchQuery, strings.Split, splitChars_without _ _ h]
  simp

/-- C7, as the program has it: for every `q` with at least one colon, `searchPost` calls
`searchElasticData` with the text before the first colon as the field name and the text
between the first colon and the next one (or the end of `q`) as the field value. -/
theorem C7_search_splits_on_every_colon {σ : Type}
    (NewClient : σ → Except Error (ScrollClient σ))
    (v : Values) (fuel : Nat) (s : σ) (h : ':' ∈ (v.Get "q").data) :
    searchPost NewClient v fuel s =
      searchElasticData NewClient
        (String.mk ((v.Get "q").data.takeWhile (fun c => decide (c ≠ ':'))))
        (String.mk ((((v.Get "q").data.dropWhile (fun c => decide (c ≠ ':'))).drop 1).takeWhile
           (fun c => decide (c ≠ ':')))) fuel s := by
  simp only [searchPost, searchQuery_with_colon v h]

theorem C7_search_splits_on_every_colon_witness :
    searchPost scriptedConnect [("q", "ttl:2020-01-01T10:00:00")] 1 [] =
      searchElasticData scriptedConnect "ttl" "2020-01-01T10" 1 [] := by
  have h := C7_search_splits_on_every_colon scriptedConnect
    [("q", "ttl:2020-01-01T10:00:00")] 1 [] (by decide)
  rw [h]
  decide

/-- C7 as stated fails: for `q = "ttl:2020-01-01T10:00:00"` the field value `searchPost`
reads is "2020-01-01T10", not the whole text "2020-01-01T10:00:00" after the first colon. -/
theorem C7_counterexample :
    searchQuery [("q", "ttl:2020-01-01T10:00:00")] = Run.done ("ttl", "2020-01-01T10") ∧
      searchQuery [("q", "ttl:2020-01-01T10:00:00")] ≠ Run.done ("ttl", "2020-01-01T10:00:00") := by
  decide

/-- C8: `searchPost` panics on an index out of range exactly when `q` (the empty string
when the parameter is absent) has no colon: without a colon the split has one element and
reading element 1 panics, with a colon both reads succeed and `searchElasticData` is
called with the two elements read. -/
theorem C8_search_panics_iff_no_colon {σ : Type}
    (NewClient : σ → Except Error (ScrollClient σ))
    (v : Values) (fuel : Nat) (s : σ) :
    ((∃ msg, searchQuery v = Run.panic msg) ↔ ':' ∉ (v.Get "q").data) ∧
    (':' ∉ (v.Get "q").data →
      (strings.Split (v.Get "q") ':').length = 1 ∧
      (strings.Split (v.Get "q") ':')[1]? = none ∧
      searchPost NewClient v fuel s =
        (Run.panic "runtime error: index out of range [1] with length 1", s)) ∧
    (':' ∈ (v.Get "q").data →
      ∃ key value, (strings.Split (v.Get "q") ':')[0]? = some key ∧
        (strings.Split (v.Get "q") ':')[1]? = some value ∧
        searchPost NewClient v fuel s = searchElasticData NewClient key value fuel s) := by
  refine ⟨?_, ?_, ?_⟩
  · constructor
    · rintro ⟨msg, hmsg⟩ hin
      rw [searchQuery_with_colon v hin] at hmsg
      cases hmsg
    · intro hnot
      exact ⟨_, searchQuery_without_colon v hnot⟩
  · intro hnot
    refine ⟨?_, ?_, ?_⟩
    · simp [strings.Split, splitChars_without _ _ hnot]
    · simp [strings.Split, splitChars_without _ _ hnot]
    · simp only [searchPost, searchQuery_without_colon v hnot]
  · intro hin
    exact ⟨_, _, (Split_with_colon _ hin).1, (Split_with_colon _ hin).2, by
      simp only [searchPost, searchQuery_with_colon v hin]⟩

theorem C8_search_panics_iff_no_colon_witness :
    searchPost scriptedConnect [("id", "3")] 1 [] =
        (Run.panic "runtime error: index out of range [1] with length 1", []) ∧
      ∃ key value, (strings.Split (Values.Get [("q", "a:b")] "q") ':')[0]? = some key ∧
        (strings.Split (Values.Get [("q", "a:b")] "q") ':')[1]? = some value ∧
        searchPost scriptedConnect [("q", "a:b")] 1 [] =
          searchElasticData scriptedConnect key value 1 [] :=
  ⟨((C8_search_panics_iff_no_colon scriptedConnect [("id", "3")] 1 []).2.1
      (by decide)).2.2,
   (C8_search_panics_iff_no_colon scriptedConnect [("q", "a:b")] 1 []).2.2 (by decide)⟩
/-! ## The counter and the identifiers -/

theorem wrapInt_add_wrapInt (x y : Int) : wrapInt (wrapInt x + y) = wrapInt (x + y) := by
  unfold wrapInt
  omega

theorem wrapInt_of_range (x : Int) (h1 : -2 ^ 63 ≤ x) (h2 : x < 2 ^ 63) : wrapInt x = x := by
  unfold wrapInt
  omega

theorem wrapInt_inj_window (c : Int) (i j : Nat) (hi : i < 2 ^ 64) (hj : j < 2 ^ 64)
    (h : wrapInt (c + i) = wrapInt (c + j)) : i = j := by
  unfold wrapInt at h
  omega

theorem readDigits_append (xs ys : List Char) (acc : Nat) :
    readDigits (xs ++ ys) acc = (readDigits xs acc).bind (readDigits ys) := by
  induction xs generalizing acc with
  | nil => simp [readDigits]
  | cons c cs ih =>
    by_cases h : 48 ≤ c.toNat ∧ c.toNat ≤ 57
    · simp [readDigits, h, ih]
    · simp [readDigits, h]

theorem toDigitsCore_append (fuel n : Nat) (ds : List Char) :
    Nat.toDigitsCore 10 fuel n ds = Nat.toDigitsCore 10 fuel n [] ++ ds := by
  induction fuel generalizing n ds with
  | zero => simp [Nat.toDigitsCore]
  | succ fuel ih =>
    simp only [Nat.toDigitsCore]
    split
    · simp
    · rw [ih, ih (n / 10) [Nat.digitChar (n % 10)]]
      simp

theorem readDigits_digitChar (d acc : Nat) (h : d < 10) :
    readDigits [Nat.digitChar d] acc = some (acc * 10 + d) := by
  interval_cases d <;> simp [readDigits, Nat.digitChar]

theorem readDigits_toDigitsCore (fuel n : Nat) (h : n < fuel) :
    readDigits (Nat.toDigitsCore 10 fuel n []) 0 = some n := by
  induction fuel generalizing n with
  | zero => omega
  | succ fuel ih =>
    simp only [Nat.toDigitsCore]
    split
    · rename_i h0
      rw [readDigits_digitChar _ _ (Nat.mod_lt _ (by decide))]
      simp
      omega
    · rename_i h0
      rw [toDigitsCore_append, readDigits_append, ih (n / 10) (by omega)]
      simp [readDigits_digitChar _ _ (Nat.mod_lt n (by decide : 10 > 0))]
      omega

theorem readDigits_toDigits (n : Nat) : readDigits (Nat.toDigits 10 n) 0 = some n :=
  readDigits_toDigitsCore (n + 1) n (Nat.lt_succ_self n)

theorem readInt_Itoa (k : Int) : readInt (strconv.Itoa k) = some k := by
  cases k with
  | ofNat n =>
    have h := readDigits_toDigits n
    simp only [strconv.Itoa, readInt]
    cases hd : Nat.toDigits 10 n with
    | nil => rw [hd] at h; simp [readDigits] at h; subst h; simp [Nat.toDigits, Nat.toDigitsCore] at hd
    | cons c cs =>
      rw [hd] at h
      have hc : c ≠ '-' := by
        intro e
        subst e
        simp [readDigits] at h
      simp [hc, h]
  | negSucc n =>
    have h := readDigits_toDigits (n + 1)
    simp only [strconv.Itoa, readInt]
    have hne : Nat.toDigits 10 (n + 1) ≠ [] := by
      intro e
      rw [e] at h
      simp [readDigits] at h
    simp [hne, h, Int.negSucc_eq]

theorem bulkLoop_acc (data : List User) (cnt : Int) (acc : List (String × User)) :
    bulkLoop data cnt acc = ((bulkLoop data cnt []).1, acc ++ (bulkLoop data cnt []).2) := by
  induction data generalizing cnt acc with
  | nil => simp [bulkLoop]
  | cons doc data ih =>
    simp only [bulkLoop]
    rw [ih, ih _ ([] ++ _)]
    simp

theorem bulkLoop_cons (doc : User) (data : List User) (cnt : Int) :
    bulkLoop (doc :: data) cnt [] =
      ((bulkLoop data (wrapInt (cnt + 1)) []).1,
       (strconv.Itoa (wrapInt (cnt + 1)), doc) :: (bulkLoop data (wrapInt (cnt + 1)) []).2) := by
  simp only [bulkLoop]
  rw [bulkLoop_acc]
  simp

theorem bulkLoop_length (data : List User) (cnt : Int) :
    (bulkLoop data cnt []).2.length = data.length := by
  induction data generalizing cnt with
  | nil => simp [bulkLoop]
  | cons doc data ih => rw [bulkLoop_cons]; simp [ih]

theorem bulkLoop_getElem? (data : List User) (cnt : Int) (i : Nat) (hi : i < data.length) :
    (bulkLoop data cnt []).2[i]? = some (strconv.Itoa (wrapInt (cnt + i + 1)), data[i]) := by
  induction data generalizing cnt i with
  | nil => simp at hi
  | cons doc data ih =>
    rw [bulkLoop_cons]
    cases i with
    | zero => simp
    | succ i =>
      simp only [List.length_cons, Nat.add_lt_add_iff_right] at hi
      simp only [List.getElem?_cons_succ, List.getElem_cons_succ]
      rw [ih _ i hi]
      have e : wrapInt (wrapInt (cnt + 1) + (i : Int) + 1) = wrapInt (cnt + ((i + 1 : Nat) : Int) + 1) := by
        unfold wrapInt
        push_cast
        omega
      rw [e]

theorem bulkLoop_ids (data : List User) (cnt : Int) :
    (bulkLoop data cnt []).2.map Prod.fst =
      (List.range data.length).map (fun (j : Nat) => strconv.Itoa (wrapInt (cnt + (j : Int) + 1))) := by
  apply List.ext_getElem?
  intro i
  by_cases hi : i < data.length
  · simp [bulkLoop_getElem? data cnt i hi, List.getElem?_range hi, hi]
  · have h1 : (bulkLoop data cnt []).2.length ≤ i := by rw [bulkLoop_length]; omega
    simp [List.getElem?_eq_none, h1, Nat.le_of_not_lt hi]

theorem bulkLoop_counter (data : List User) (cnt y : Int) :
    wrapInt ((bulkLoop data cnt []).1 + y) = wrapInt (cnt + data.length + y) := by
  induction data generalizing cnt y with
  | nil => simp [bulkLoop]
  | cons doc data ih =>
    rw [bulkLoop_cons]
    simp only []
    rw [ih]
    simp only [List.length_cons]
    unfold wrapInt
    push_cast
    omega

theorem bulkLoop_counter_of_range (data : List User) (cnt : Int) (h : wrapInt cnt = cnt) :
    (bulkLoop data cnt []).1 = wrapInt (cnt + data.length) := by
  induction data generalizing cnt with
  | nil => simp [bulkLoop, h]
  | cons doc data ih =>
    rw [bulkLoop_cons]
    simp only []
    rw [ih _ (by unfold wrapInt; omega)]
    simp only [List.length_cons]
    unfold wrapInt
    push_cast
    omega

theorem ids_segment (cnt cnt1 : Int) (k m : Nat)
    (h : ∀ y : Int, wrapInt (cnt1 + y) = wrapInt (cnt + k + y)) :
    (List.range k).map (fun (j : Nat) => strconv.Itoa (wrapInt (cnt + (j : Int) + 1))) ++
        (List.range m).map (fun (j : Nat) => strconv.Itoa (wrapInt (cnt1 + (j : Int) + 1))) =
      (List.range (k + m)).map (fun (j : Nat) => strconv.Itoa (wrapInt (cnt + (j : Int) + 1))) := by
  rw [List.range_add, List.map_append, List.map_map]
  congr 1
  apply List.map_congr_left
  intro j _
  simp only [Function.comp]
  rw [add_assoc cnt1, h]
  congr 2
  push_cast
  ring

theorem Itoa_injective (a b : Int) (h : strconv.Itoa a = strconv.Itoa b) : a = b := by
  have h1 := readInt_Itoa a
  rw [h, readInt_Itoa] at h1
  exact (Option.some.inj h1).symm

/-- The state `bulkElasticData` leaves when the client is created. -/
theorem bulkElasticData_state {σ : Type} (NewClient : σ → Except Error (Client σ))
    (c : Client σ) (data : List User) (p : Proc σ) (hnew : NewClient p.engine = Except.ok c) :
    (bulkElasticData NewClient data p).2 =
      ⟨(bulkLoop data p.idIteration []).1, (c.Bulk (bulkLoop data p.idIteration []).2 p.engine).2,
       p.assigned ++ (List.range data.length).map
          (fun (j : Nat) => strconv.Itoa (wrapInt (p.idIteration + (j : Int) + 1)))⟩ := by
  rw [← bulkLoop_ids]
  simp only [bulkElasticData, initElastic_ok NewClient p.engine c hnew]
  split <;> simp_all

/-- The state `bulkElasticData` leaves when the client cannot be created. -/
theorem bulkElasticData_state_of_error {σ : Type} (NewClient : σ → Except Error (Client σ))
    (err : Error) (data : List User) (p : Proc σ) (hnew : NewClient p.engine = Except.error err) :
    bulkElasticData NewClient data p = (Run.panic err.message, p) := by
  simp only [bulkElasticData, initElastic_error NewClient p.engine err hnew]

theorem createPost_state {σ : Type} (NewClient : σ → Except Error (Client σ)) (body : Body)
    (p : Proc σ) :
    (createPost NewClient body p).2.idIteration = wrapInt (p.idIteration + 1) ∧
      (createPost NewClient body p).2.assigned =
        p.assigned ++ [strconv.Itoa (wrapInt (p.idIteration + 1))] := by
  simp [createPost]

/-- Each call appends a run of identifiers that goes on counting from the counter. -/
theorem step_assigned {σ : Type} (NewClient : σ → Except Error (Client σ)) (calls : List Call)
    (ih : ∀ p : Proc σ, ∃ m : Nat, (serve NewClient calls p).assigned =
      p.assigned ++ (List.range m).map
        (fun (j : Nat) => strconv.Itoa (wrapInt (p.idIteration + (j : Int) + 1))))
    (p q : Proc σ) (k : Nat)
    (hcnt : ∀ y : Int, wrapInt (q.idIteration + y) = wrapInt (p.idIteration + k + y))
    (hlog : q.assigned = p.assigned ++ (List.range k).map
      (fun (j : Nat) => strconv.Itoa (wrapInt (p.idIteration + (j : Int) + 1)))) :
    ∃ m : Nat, (serve NewClient calls q).assigned =
      p.assigned ++ (List.range m).map
        (fun (j : Nat) => strconv.Itoa (wrapInt (p.idIteration + (j : Int) + 1))) := by
  obtain ⟨m, hm⟩ := ih q
  refine ⟨k + m, ?_⟩
  rw [hm, hlog, ← ids_segment p.idIteration q.idIteration k m hcnt, List.append_assoc]

theorem bulkElasticData_step {σ : Type} (NewClient : σ → Except Error (Client σ))
    (data : List User) (p : Proc σ) :
    ∃ k : Nat,
      (∀ y : Int, wrapInt ((bulkElasticData NewClient data p).2.idIteration + y) =
        wrapInt (p.idIteration + k + y)) ∧
      (bulkElasticData NewClient data p).2.assigned = p.assigned ++ (List.range k).map
        (fun (j : Nat) => strconv.Itoa (wrapInt (p.idIteration + (j : Int) + 1))) := by
  cases hnew : NewClient p.engine with
  | error err =>
    refine ⟨0, ?_, ?_⟩
    · intro y
      rw [bulkElasticData_state_of_error NewClient err data p hnew]
      simp
    · rw [bulkElasticData_state_of_error NewClient err data p hnew]
      simp
  | ok c =>
    refine ⟨data.length, ?_, ?_⟩
    · intro y
      rw [bulkElasticData_state NewClient c data p hnew]
      exact bulkLoop_counter data p.idIteration y
    · rw [bulkElasticData_state NewClient c data p hnew]

theorem serve_assigned {σ : Type} (NewClient : σ → Except Error (Client σ)) (calls : List Call) :
    ∀ p : Proc σ, ∃ m : Nat, (serve NewClient calls p).assigned =
      p.assigned ++ (List.range m).map
        (fun (j : Nat) => strconv.Itoa (wrapInt (p.idIteration + (j : Int) + 1))) := by
  induction calls with
  | nil => intro p; exact ⟨0, by simp [serve]⟩
  | cons call calls ih =>
    intro p
    cases call with
    | createPost body =>
      simp only [serve]
      refine step_assigned NewClient calls ih p _ 1 ?_ ?_
      · intro y
        rw [(createPost_state NewClient body p).1]
        unfold wrapInt
        push_cast
        omega
      · rw [(createPost_state NewClient body p).2]
        simp [List.range_succ]
    | bulkElasticData data =>
      simp only [serve]
      obtain ⟨k, h1, h2⟩ := bulkElasticData_step NewClient data p
      exact step_assigned NewClient calls ih p _ k h1 h2
    | bulkPost stream =>
      simp only [serve, bulkPost]
      cases hdec : bulkDecode stream ⟨"", "", ""⟩ [] with
      | none => exact ⟨0, by simp⟩
      | some posts =>
        obtain ⟨k, h1, h2⟩ := bulkElasticData_step NewClient posts p
        exact step_assigned NewClient calls ih p _ k h1 h2

theorem issued_eq {σ : Type} (NewClient : σ → Except Error (Client σ)) (calls : List Call)
    (s : σ) :
    issued NewClient calls s =
      (List.range (issued NewClient calls s).length).map
        (fun (j : Nat) => strconv.Itoa (wrapInt ((j : Int) + 1))) := by
  obtain ⟨m, hm⟩ := serve_assigned NewClient calls ⟨0, s, []⟩
  have hlen : (issued NewClient calls s).length = m := by
    unfold issued
    rw [hm]
    simp
  rw [hlen]
  unfold issued
  rw [hm]
  simp

/-- C1, as the program has it: a fresh process (`idIteration = 0`) that serves any finite
sequence of `createPost`, `bulkPost` and `bulkElasticData` calls and issues fewer than
2^63 identifiers in all issues exactly the decimal strings "1", "2", ..., "n" in this
order, whatever the engine answers and whatever the bodies decode to; read as integers,
every identifier issued is greater than every identifier issued before it. -/
theorem C1_identifiers_count_up {σ : Type} (NewClient : σ → Except Error (Client σ))
    (calls : List Call) (s : σ) (hn : (issued NewClient calls s).length < 2 ^ 63) :
    issued NewClient calls s =
        (List.range' 1 (issued NewClient calls s).length).map
          (fun (k : Nat) => strconv.Itoa (k : Int)) ∧
      (issued NewClient calls s).Pairwise
        (fun a b => ∃ x y : Int, readInt a = some x ∧ readInt b = some y ∧ x < y) := by
  have h1 : issued NewClient calls s =
      (List.range' 1 (issued NewClient calls s).length).map
        (fun (k : Nat) => strconv.Itoa (k : Int)) := by
    conv_lhs => rw [issued_eq NewClient calls s]
    rw [List.range'_eq_map_range, List.map_map]
    apply List.map_congr_left
    intro j hj
    rw [List.mem_range] at hj
    have e : wrapInt ((j : Int) + 1) = ((1 + j : Nat) : Int) := by
      unfold wrapInt
      push_cast
      omega
    simp only [Function.comp, e]
  refine ⟨h1, ?_⟩
  rw [h1, List.pairwise_map]
  refine List.Pairwise.imp ?_ (List.pairwise_lt_range' 1 _)
  intro a b hab
  exact ⟨a, b, readInt_Itoa _, readInt_Itoa _, by exact_mod_cast hab⟩

theorem C1_identifiers_count_up_witness :
    issued mapConnect [Call.createPost none, Call.bulkPost [some [], some []],
        Call.bulkElasticData [⟨"A", "B", "2020-01-01"⟩]] [] = ["1", "2", "3", "4"] := by
  have h := (C1_identifiers_count_up mapConnect [Call.createPost none,
    Call.bulkPost [some [], some []], Call.bulkElasticData [⟨"A", "B", "2020-01-01"⟩]] []
    (by
      have hlen : (issued mapConnect [Call.createPost none, Call.bulkPost [some [], some []],
          Call.bulkElasticData [⟨"A", "B", "2020-01-01"⟩]] []).length = 4 := by decide
      rw [hlen]
      norm_num)).1
  rw [h]
  decide

theorem issued_bulk_then_create {σ : Type} (NewClient : σ → Except Error (Client σ))
    (hnew : ∀ s, ∃ c, NewClient s = Except.ok c) (N : Nat) (u : User) (body : Body) (s : σ) :
    issued NewClient [Call.bulkElasticData (List.replicate N u), Call.createPost body] s =
      (List.range N).map (fun (j : Nat) => strconv.Itoa (wrapInt ((j : Int) + 1))) ++
        [strconv.Itoa (wrapInt ((N : Int) + 1))] := by
  obtain ⟨c, hc⟩ := hnew s
  have e := bulkLoop_counter (List.replicate N u) 0 1
  simp only [List.length_replicate, zero_add] at e
  have hst := bulkElasticData_state NewClient c (List.replicate N u) ⟨0, s, []⟩ hc
  simp only [List.length_replicate, zero_add, List.nil_append] at hst
  simp only [issued, serve, (createPost_state NewClient body _).2, hst, e]

theorem issued_bulk_then_create_not_counting {σ : Type}
    (NewClient : σ → Except Error (Client σ)) (hnew : ∀ s, ∃ c, NewClient s = Except.ok c)
    (N : Nat) (u : User) (body : Body) (s : σ)
    (hN : wrapInt ((N : Int) + 1) ≠ (N : Int) + 1) :
    ¬ ∃ n : Nat,
      issued NewClient [Call.bulkElasticData (List.replicate N u), Call.createPost body] s =
        (List.range' 1 n).map (fun (k : Nat) => strconv.Itoa (k : Int)) := by
  rintro ⟨n, hn⟩
  rw [issued_bulk_then_create NewClient hnew] at hn
  have hlen := congrArg List.length hn
  simp only [List.length_append, List.length_map, List.length_range, List.length_singleton,
    List.length_range'] at hlen
  subst hlen
  have hget := congrArg (fun l => l[N]?) hn
  simp only [] at hget
  rw [List.getElem?_append_right (by simp)] at hget
  simp only [List.length_map, List.length_range, Nat.sub_self, List.getElem?_cons_zero,
    List.getElem?_map, List.getElem?_range' 1 1 (Nat.lt_succ_self N), Option.map_some'] at hget
  have h2 := Itoa_injective _ _ (Option.some.inj hget)
  apply hN
  rw [h2]
  push_cast
  ring

/-- C1 as stated fails for a sequence that makes the 64-bit counter overflow: after a bulk
creation of 2^63 - 1 documents the next `createPost` issues "-9223372036854775808", so the
identifiers issued are not "1", ..., "n" for any `n`. -/
theorem C1_counterexample :
    (issued downConnect [Call.bulkElasticData (List.replicate 9223372036854775807 ⟨"", "", ""⟩),
        Call.createPost none] ()).getLast? = some "-9223372036854775808" ∧
      ¬ ∃ n : Nat,
        issued downConnect [Call.bulkElasticData (List.replicate 9223372036854775807 ⟨"", "", ""⟩),
          Call.createPost none] () =
        (List.range' 1 n).map (fun (k : Nat) => strconv.Itoa (k : Int)) := by
  constructor
  · rw [issued_bulk_then_create downConnect (fun _ => ⟨downEngine, rfl⟩), List.getLast?_append]
    have e : strconv.Itoa (wrapInt (((9223372036854775807 : Nat) : Int) + 1)) =
        "-9223372036854775808" := by decide
    rw [e]
    rfl
  · exact issued_bulk_then_create_not_counting downConnect (fun _ => ⟨downEngine, rfl⟩)
      9223372036854775807 ⟨"", "", ""⟩ none () (by decide)

/-- C2, as the program has it: when `initElastic` creates the client, for every list of
`n` documents and every counter value `c` at entry with `c + n < 2^63`, `bulkElasticData`
returns after one bulk round trip whose request has exactly `n` index requests in the
order of the input, the `i`-th document paired with `strconv.Itoa(c+i+1)`; the `n`
identifiers are pairwise distinct and are the ones assigned, the counter is `c + n`
afterwards, and an empty list gives no index request and leaves the counter as it was. -/
theorem C2_bulk_identifiers {σ : Type} (NewClient : σ → Except Error (Client σ))
    (c : Client σ) (data : List User) (p : Proc σ)
    (hnew : NewClient p.engine = Except.ok c)
    (hc : -2 ^ 63 ≤ p.idIteration) (hsum : p.idIteration + data.length < 2 ^ 63) :
    (∃ response, (bulkElasticData NewClient data p).1 = Run.done response) ∧
    (bulkElasticData NewClient data p).2.engine =
      (c.Bulk (bulkLoop data p.idIteration []).2 p.engine).2 ∧
    (bulkLoop data p.idIteration []).2.length = data.length ∧
    (∀ (i : Nat) (hi : i < data.length),
      (bulkLoop data p.idIteration []).2[i]? =
        some (strconv.Itoa (p.idIteration + i + 1), data[i])) ∧
    ((bulkLoop data p.idIteration []).2.map Prod.fst).Nodup ∧
    (bulkElasticData NewClient data p).2.assigned =
      p.assigned ++ (bulkLoop data p.idIteration []).2.map Prod.fst ∧
    (bulkElasticData NewClient data p).2.idIteration = p.idIteration + data.length ∧
    (data = [] → (bulkLoop data p.idIteration []).2 = [] ∧
      (bulkElasticData NewClient data p).2.idIteration = p.idIteration) := by
  have hw : wrapInt p.idIteration = p.idIteration := wrapInt_of_range _ hc (by omega)
  have hst := bulkElasticData_state NewClient c data p hnew
  have hcnt : (bulkElasticData NewClient data p).2.idIteration =
      p.idIteration + data.length := by
    rw [hst]
    simp only []
    rw [bulkLoop_counter_of_range _ _ hw]
    exact wrapInt_of_range _ (by omega) hsum
  refine ⟨?_, ?_, bulkLoop_length _ _, ?_, ?_, ?_, hcnt, ?_⟩
  · simp only [bulkElasticData, initElastic_ok NewClient p.engine c hnew]
    split <;> exact ⟨_, rfl⟩
  · rw [hst]
  · intro i hi
    rw [bulkLoop_getElem? data p.idIteration i hi,
      wrapInt_of_range (p.idIteration + i + 1) (by omega) (by omega)]
  · rw [bulkLoop_ids]
    refine List.Nodup.map_on ?_ (List.nodup_range _)
    intro i hi j hj hij
    rw [List.mem_range] at hi hj
    have h1 := Itoa_injective _ _ hij
    have h2 : wrapInt (p.idIteration + 1 + (i : Int)) = wrapInt (p.idIteration + 1 + (j : Int)) := by
      rw [add_right_comm, h1, add_right_comm]
    exact wrapInt_inj_window _ i j (by omega) (by omega) h2
  · rw [hst, bulkLoop_ids]
  · intro hd
    subst hd
    refine ⟨by simp [bulkLoop], ?_⟩
    rw [hcnt]
    simp

theorem C2_bulk_identifiers_witness :
    (bulkElasticData mapConnect
        [⟨"A", "B", "2020-01-01"⟩, ⟨"C", "D", "2020-01-02"⟩, ⟨"E", "F", "2020-01-03"⟩]
        ⟨5, [], []⟩).2.assigned =
      [] ++ (bulkLoop
        [⟨"A", "B", "2020-01-01"⟩, ⟨"C", "D", "2020-01-02"⟩, ⟨"E", "F", "2020-01-03"⟩]
        5 []).2.map Prod.fst ∧
      (bulkElasticData mapConnect
        [⟨"A", "B", "2020-01-01"⟩, ⟨"C", "D", "2020-01-02"⟩, ⟨"E", "F", "2020-01-03"⟩]
        ⟨5, [], []⟩).2.idIteration = 5 + 3 :=
  ⟨(C2_bulk_identifiers mapConnect mapEngine
      [⟨"A", "B", "2020-01-01"⟩, ⟨"C", "D", "2020-01-02"⟩, ⟨"E", "F", "2020-01-03"⟩] ⟨5, [], []⟩
      rfl (by norm_num) (by norm_num)).2.2.2.2.2.1,
   (C2_bulk_identifiers mapConnect mapEngine
      [⟨"A", "B", "2020-01-01"⟩, ⟨"C", "D", "2020-01-02"⟩, ⟨"E", "F", "2020-01-03"⟩] ⟨5, [], []⟩
      rfl (by norm_num) (by norm_num)).2.2.2.2.2.2.1⟩

/-- C2 as stated fails in two ways.  At the counter value 2^63 - 2 two documents are given
the identifiers "9223372036854775807" and "-9223372036854775808", which are not
consecutive, and the counter is -2^63 afterwards, not `c + n`.  And when the client cannot
be created `bulkElasticData` panics in `initElastic` before its loop: for one document at
the counter value 5 no identifier is assigned and the counter is still 5. -/
theorem C2_counterexample :
    ((bulkElasticData mapConnect [⟨"A", "B", "2020-01-01"⟩, ⟨"C", "D", "2020-01-02"⟩]
          ⟨9223372036854775806, [], []⟩).2.assigned =
        ["9223372036854775807", "-9223372036854775808"] ∧
      (bulkElasticData mapConnect [⟨"A", "B", "2020-01-01"⟩, ⟨"C", "D", "2020-01-02"⟩]
          ⟨9223372036854775806, [], []⟩).2.idIteration = -9223372036854775808) ∧
    ((bulkElasticData (noConnect : Store → Except Error (Client Store))
          [⟨"A", "B", "2020-01-01"⟩] ⟨5, [], []⟩).1 =
        Run.panic "no active connection found: no Elasticsearch node available" ∧
      (bulkElasticData (noConnect : Store → Except Error (Client Store))
          [⟨"A", "B", "2020-01-01"⟩] ⟨5, [], []⟩).2.assigned = [] ∧
      (bulkElasticData (noConnect : Store → Except Error (Client Store))
          [⟨"A", "B", "2020-01-01"⟩] ⟨5, [], []⟩).2.idIteration = 5) := by
  decide

/-! ## Failing round trips and scroll draining -/

/-- The five document operations report `status = false` when the client is created and
their round trip fails. -/
theorem document_operations_report_failure {σ : Type} (NewClient : σ → Except Error (Client σ))
    (c : Client σ) (data : User) (docs : List User) (id : String) (s : σ) (p : Proc σ)
    (hs : NewClient s = Except.ok c) (hp : NewClient p.engine = Except.ok c) :
    ((∃ e, (c.Index id data s).1 = Except.error e) →
      ∃ r, (createElasticData NewClient data id s).1 = Run.done r ∧
        mapGet r "status" = some (Val.bool false)) ∧
    ((∃ e, (c.Bulk (bulkLoop docs p.idIteration []).2 p.engine).1 = Except.error e) →
      ∃ r, (bulkElasticData NewClient docs p).1 = Run.done r ∧
        mapGet r "status" = some (Val.bool false)) ∧
    ((∃ e, (c.Get id s).1 = Except.error e) →
      ∃ r, (getElasticData NewClient id s).1 = Run.done r ∧
        mapGet r "status" = some (Val.bool false)) ∧
    ((∃ e, (c.Update id data s).1 = Except.error e) →
      ∃ r, (updateElasticData NewClient data id s).1 = Run.done r ∧
        mapGet r "status" = some (Val.bool false)) ∧
    ((∃ e, (c.Delete id s).1 = Except.error e) →
      ∃ r, (deleteElasticData NewClient id s).1 = Run.done r ∧
        mapGet r "status" = some (Val.bool false)) := by
  refine ⟨?_, ?_, ?_, ?_, ?_⟩
  · rintro ⟨e, he⟩
    simp only [createElasticData, initElastic_ok NewClient s c hs]
    split <;> simp_all [mapSet, mapGet]
  · rintro ⟨e, he⟩
    simp only [bulkElasticData, initElastic_ok NewClient p.engine c hp]
    split <;> simp_all [mapSet, mapGet]
  · rintro ⟨e, he⟩
    simp only [getElasticData, initElastic_ok NewClient s c hs]
    split <;> simp_all [mapSet, mapGet]
  · rintro ⟨e, he⟩
    simp only [updateElasticData, initElastic_ok NewClient s c hs]
    split <;> simp_all [mapSet, mapGet]
  · rintro ⟨e, he⟩
    simp only [deleteElasticData, initElastic_ok NewClient s c hs]
    split <;> simp_all [mapSet, mapGet]

/-- Every bridge function panics in `initElastic` when the client cannot be created. -/
theorem bridge_panics_without_client {σ : Type} (NewClient : σ → Except Error (Client σ))
    (NewScroll : σ → Except Error (ScrollClient σ)) (data : User) (docs : List User)
    (id key value : String) (fuel : Nat) (s : σ) (p : Proc σ) (err : Error)
    (hs : NewClient s = Except.error err) (hp : NewClient p.engine = Except.error err)
    (hscroll : NewScroll s = Except.error err) :
    createElasticData NewClient data id s = (Run.panic err.message, s) ∧
    bulkElasticData NewClient docs p = (Run.panic err.message, p) ∧
    getElasticData NewClient id s = (Run.panic err.message, s) ∧
    updateElasticData NewClient data id s = (Run.panic err.message, s) ∧
    deleteElasticData NewClient id s = (Run.panic err.message, s) ∧
    getAllElasticData NewScroll fuel s = (Run.panic err.message, s) ∧
    searchElasticData NewScroll key value fuel s = (Run.panic err.message, s) := by
  refine ⟨?_, ?_, ?_, ?_, ?_, ?_, ?_⟩
  · simp only [createElasticData, initElastic_error NewClient s err hs]
  · simp only [bulkElasticData, initElastic_error NewClient p.engine err hp]
  · simp only [getElasticData, initElastic_error NewClient s err hs]
  · simp only [updateElasticData, initElastic_error NewClient s err hs]
  · simp only [deleteElasticData, initElastic_error NewClient s err hs]
  · simp only [getAllElasticData, initElastic_error NewScroll s err hscroll]
  · simp only [searchElasticData, initElastic_error NewScroll s err hscroll]

/-- C6 fails on the two scroll loops: when the client is created and the first scroll round
trip returns a nil result with an error other than `io.EOF`, `getAllElasticData` and
`searchElasticData` panic on the nil result, for any number of steps allowed, and return
no response map. -/
theorem C6_scroll_failure_panics (fuel : Nat) :
    (getAllElasticData scriptedConnect (fuel + 1)
        [(none, some (Error.other "connection refused"))]).1 =
      Run.panic "runtime error: invalid memory address or nil pointer dereference" ∧
    (searchElasticData scriptedConnect "last_name" "Smith" (fuel + 1)
        [(none, some (Error.other "connection refused"))]).1 =
      Run.panic "runtime error: invalid memory address or nil pointer dereference" := by
  constructor
  · simp [getAllElasticData, getAllLoop, initElastic, scriptedConnect, scriptedDo]
  · simp [searchElasticData, searchLoop, initElastic, scriptedConnect, scriptedDo]

/-- C9 fails on a hit whose source lacks a field: with the pages `1 ↦ (A, B, 2020-01-01)`
and then `2 ↦ {first_name: C}`, the document `getAllElasticData` returns for `2` has the
last name and the date of the hit before it, not the empty string. -/
theorem C9_getAll_carries_fields_over :
    (getAllElasticData scriptedConnect 3
        [(some ⟨[⟨"1", some (Marshal ⟨"A", "B", "2020-01-01"⟩)⟩]⟩, none),
         (some ⟨[⟨"2", some [("first_name", JVal.str "C")]⟩]⟩, none)]).1 =
      Run.done [("1", Val.user ⟨"A", "B", "2020-01-01"⟩),
                ("2", Val.user ⟨"C", "B", "2020-01-01"⟩)] := by
  decide
